import Mathlib

/-
Verification of the cache-management and proxy subsystem of src/index.js
(upic-github). Filesystem paths are modelled as lists of segments from the
root; timestamps as integers (milliseconds); blobs as lists of bytes. The
per-entry filesystem failures that the error-handling contracts talk about
are injected as lists of file names whose stat or unlink calls fail.
-/

namespace UpicGithub

/-- CacheFile records what the code derives on demand from one directory
entry: its name (the key), its byte size, its modification time, and the
stored bytes. -/
structure CacheFile where
  name : String
  size : Nat
  mtime : Int
  content : List Nat
  deriving DecidableEq

/-- CacheState is the cache directory, the sole persisted state: its
entries, plus whether the directory itself can be enumerated (whether
readdir succeeds). -/
structure CacheState where
  files : List CacheFile
  readable : Bool
  deriving DecidableEq

/-- FsFaults injects per-entry filesystem failures: names whose stat call
fails during enumeration, and names whose unlink call fails during
cleanup. -/
structure FsFaults where
  statFails : List String
  unlinkFails : List String
  deriving DecidableEq

/-- noFaults describes a run in which every per-entry stat and unlink
succeeds. -/
def noFaults : FsFaults := { statFails := [], unlinkFails := [] }

/-- splitSlash splits a string at slash characters: the segment view that
path.join takes of its string arguments. -/
def splitSlash (s : String) : List String :=
  (s.data.foldr
    (fun c acc =>
      if c = '/' then [] :: acc
      else match acc with
        | [] => [[c]]
        | a :: rest => (c :: a) :: rest)
    [[]]).map String.mk

/-- normalizeSegs resolves empty, "." and ".." segments the way the node
path module normalizes an absolute path: ".." removes the segment before
it (and is dropped at the root). -/
def normalizeSegs (segs : List String) : List String :=
  segs.foldl (fun acc seg =>
    if seg = "" then acc
    else if seg = "." then acc
    else if seg = ".." then acc.dropLast
    else acc ++ [seg]) []

/-- dirnameSegs stands for the absolute directory of index.js, called
__dirname in the code. -/
def dirnameSegs : List String := ["srv", "upic"]

/-- cacheDirSegs is cacheDir = path.join(__dirname, "cache") from
index.js. -/
def cacheDirSegs : List String := normalizeSegs (dirnameSegs ++ ["cache"])

/-- getCacheFilePath from index.js: path.join(cacheDir, filename). The
code applies no check or rewriting to the filename before joining. -/
def getCacheFilePath (filename : String) : List String :=
  normalizeSegs (cacheDirSegs ++ splitSlash filename)

/-- insideCacheDir holds when a physical location lies inside the cache
directory, that is when the cache directory segments lead the path. -/
def insideCacheDir (p : List String) : Bool :=
  p.take cacheDirSegs.length == cacheDirSegs

/-- lookupFile finds the directory entry carrying the given name. -/
def lookupFile (filename : String) (files : List CacheFile) : Option CacheFile :=
  files.find? (fun f => f.name == filename)

/-- isCacheValid from index.js: false when the file does not exist, and
otherwise true exactly when stats.mtime > threeMonthsAgo. The parameter
cutoff stands for threeMonthsAgo, the current time minus the configured
expiry threshold CONFIG.CACHE_DURATION_MONTHS. -/
def isCacheValid (st : CacheState) (cutoff : Int) (filename : String) : Bool :=
  match lookupFile filename st.files with
  | none => false
  | some f => decide (cutoff < f.mtime)

/-- getExpiredCacheFiles from index.js: reads the directory (returning the
empty list when readdir itself fails), stats each entry in turn — a
failing stat is logged and that entry skipped — and collects the entries
with stats.mtime <= threeMonthsAgo. -/
def getExpiredCacheFiles (st : CacheState) (faults : FsFaults) (cutoff : Int) :
    List CacheFile :=
  if st.readable then
    st.files.foldl
      (fun acc f =>
        if f.name ∈ faults.statFails then acc
        else if f.mtime ≤ cutoff then acc ++ [f] else acc)
      []
  else []

/-- CleanupResult mirrors the record returned by cleanupExpiredCacheFiles:
how many files were deleted and how many bytes were freed. -/
structure CleanupResult where
  deletedCount : Nat
  freedSpace : Nat
  deriving DecidableEq

/-- cleanupExpiredCacheFiles from index.js: enumerates the expired files,
returns early with zero counts when there are none, and otherwise unlinks
each one in turn — a failing unlink is logged and skipped — accumulating
the count and freed bytes of exactly the deletions that succeeded. The
second component of the result is the directory state after the pass. -/
def cleanupExpiredCacheFiles (st : CacheState) (faults : FsFaults) (cutoff : Int) :
    CleanupResult × CacheState :=
  let expired := getExpiredCacheFiles st faults cutoff
  if expired.length = 0 then
    ({ deletedCount := 0, freedSpace := 0 }, st)
  else
    let acc := expired.foldl
      (fun acc f =>
        if f.name ∈ faults.unlinkFails then acc
        else (acc.1 + 1, acc.2.1 + f.size, acc.2.2 ++ [f.name]))
      (0, 0, [])
    ({ deletedCount := acc.1, freedSpace := acc.2.1 },
     { st with files := st.files.filter (fun g => decide (g.name ∉ acc.2.2)) })

/-- CacheStats mirrors the aggregate returned by getCacheStats: file count
and total size. The code also carries totalSizeMB = totalSize / 1024 /
1024; the model keeps the size in bytes. -/
structure CacheStats where
  totalFiles : Nat
  totalSize : Nat
  deriving DecidableEq

/-- getCacheStats from index.js: reads the directory (returning the empty
aggregate when readdir itself fails), stats each entry — a failing stat is
logged and that entry skipped — and sums file count and byte size. -/
def getCacheStats (st : CacheState) (faults : FsFaults) : CacheStats :=
  if st.readable then
    st.files.foldl
      (fun acc f =>
        if f.name ∈ faults.statFails then acc
        else { totalFiles := acc.totalFiles + 1, totalSize := acc.totalSize + f.size })
      { totalFiles := 0, totalSize := 0 }
  else { totalFiles := 0, totalSize := 0 }

/-- writeCache is fs.writeFileSync(cacheFilePath, fileBuffer): the entry
under that name is overwritten wholesale, with the modification time set
to the current time and the size to the blob length. -/
def writeCache (filename : String) (blob : List Nat) (now : Int) (st : CacheState) :
    CacheState :=
  { st with files :=
      { name := filename, size := blob.length, mtime := now, content := blob } ::
        st.files.filter (fun f => !(f.name == filename)) }

/-- FetchResult abstracts the external collaborator fetchFromGitHubRaw: it
either yields the remote bytes or throws (non-2xx status or transport
error). -/
inductive FetchResult where
  | ok (blob : List Nat)
  | err
  deriving DecidableEq

/-- exceedsBudget is the guard stats.totalSizeMB > CONFIG.MAX_CACHE_SIZE_MB
of index.js, carried out in bytes: over exact arithmetic, totalSize /
1048576 > budgetMB holds exactly when totalSize > budgetMB * 1048576. -/
def exceedsBudget (stats : CacheStats) (budgetMB : Nat) : Bool :=
  decide (budgetMB * 1048576 < stats.totalSize)

/-- ProxyOutcome records the observable effects of one request to the
GET /proxy/:filename route: the HTTP status, the served bytes, the
structured error body, how many times the remote fetch collaborator was
invoked, whether the cleanup sweep ran, and the cache directory state
afterwards. -/
structure ProxyOutcome where
  status : Nat
  served : Option (List Nat)
  error : Option String
  fetchCalls : Nat
  sweepRan : Bool
  state : CacheState
  deriving DecidableEq

/-- proxyHandler is the GET /proxy/:filename route of index.js. When the
cached file is valid it is served directly with no remote call. Otherwise
the remote fetch runs once; a throw from the fetch, or from the subsequent
cache write, is caught by the surrounding try and answered with status 404
and the structured body with the message "File not found or fetch failed".
On success the blob is written to the cache, fresh stats are taken, the
cleanup sweep runs synchronously when the total size exceeds the budget,
and the fetched bytes are served from memory. -/
def proxyHandler (st : CacheState) (faults : FsFaults) (now cutoff : Int)
    (budgetMB : Nat) (fetch : FetchResult) (writeFails : Bool)
    (filename : String) : ProxyOutcome :=
  if isCacheValid st cutoff filename then
    { status := 200,
      served := (lookupFile filename st.files).map (fun f => f.content),
      error := none, fetchCalls := 0, sweepRan := false, state := st }
  else
    match fetch with
    | FetchResult.err =>
      { status := 404, served := none,
        error := some "File not found or fetch failed",
        fetchCalls := 1, sweepRan := false, state := st }
    | FetchResult.ok blob =>
      if writeFails then
        { status := 404, served := none,
          error := some "File not found or fetch failed",
          fetchCalls := 1, sweepRan := false, state := st }
      else
        let st1 := writeCache filename blob now st
        let stats := getCacheStats st1 faults
        if exceedsBudget stats budgetMB then
          { status := 200, served := some blob, error := none,
            fetchCalls := 1, sweepRan := true,
            state := (cleanupExpiredCacheFiles st1 faults cutoff).2 }
        else
          { status := 200, served := some blob, error := none,
            fetchCalls := 1, sweepRan := false, state := st1 }

/-- fileFresh is a concrete entry whose age lies below the threshold for
cutoff 40. -/
def fileFresh : CacheFile :=
  { name := "a.png", size := 100, mtime := 90, content := [1, 2, 3] }

/-- fileStale is a concrete entry well past the threshold for cutoff 40. -/
def fileStale : CacheFile :=
  { name := "old.png", size := 50, mtime := 10, content := [7] }

/-- fileBoundary is a concrete entry whose age equals the threshold
exactly when now = 100 and the threshold is 60 (mtime = cutoff = 40). -/
def fileBoundary : CacheFile :=
  { name := "edge.png", size := 10, mtime := 40, content := [9] }

/-- stW is a small readable cache directory used by the witnesses. -/
def stW : CacheState :=
  { files := [fileFresh, fileStale, fileBoundary], readable := true }

/-- stUnreadable is a directory on which readdir fails. -/
def stUnreadable : CacheState :=
  { files := [fileFresh], readable := false }

/-- faultsW injects one stat failure and one unlink failure for the
witnesses. -/
def faultsW : FsFaults :=
  { statFails := ["edge.png"], unlinkFails := ["old.png"] }

/-- getExpired_loop characterizes the enumeration loop: pushing the
entries that pass the stat and the age test, in order, onto the
accumulator. -/
theorem getExpired_loop (faults : FsFaults) (cutoff : Int) :
    ∀ (l : List CacheFile) (acc : List CacheFile),
      l.foldl
        (fun acc f =>
          if f.name ∈ faults.statFails then acc
          else if f.mtime ≤ cutoff then acc ++ [f] else acc)
        acc
      = acc ++ l.filter
          (fun f => decide (f.name ∉ faults.statFails) && decide (f.mtime ≤ cutoff)) := by
  intro l
  induction l with
  | nil => intro acc; simp
  | cons f t ih =>
    intro acc
    by_cases h1 : f.name ∈ faults.statFails
    · simp [List.foldl_cons, h1, List.filter_cons, ih]
    · by_cases h2 : f.mtime ≤ cutoff
      · simp [List.foldl_cons, h1, h2, List.filter_cons, ih]
      · simp [List.foldl_cons, h1, h2, List.filter_cons, ih]

/-- getExpired_eq_filter restates the enumeration as a filter over the
directory entries, for a readable directory. -/
theorem getExpired_eq_filter (st : CacheState) (faults : FsFaults) (cutoff : Int)
    (hread : st.readable = true) :
    getExpiredCacheFiles st faults cutoff
      = st.files.filter
          (fun f => decide (f.name ∉ faults.statFails) && decide (f.mtime ≤ cutoff)) := by
  unfold getExpiredCacheFiles
  rw [hread]
  simp [getExpired_loop]

/-- mem_getExpired shows every enumerated entry is a directory entry whose
modification time lies at or before the cutoff. -/
theorem mem_getExpired (st : CacheState) (faults : FsFaults) (cutoff : Int)
    (f : CacheFile) (h : f ∈ getExpiredCacheFiles st faults cutoff) :
    f ∈ st.files ∧ f.mtime ≤ cutoff := by
  by_cases hr : st.readable = true
  · rw [getExpired_eq_filter st faults cutoff hr] at h
    rcases List.mem_filter.mp h with ⟨hmem, hp⟩
    simp only [Bool.and_eq_true, decide_eq_true_eq] at hp
    exact ⟨hmem, hp.2⟩
  · unfold getExpiredCacheFiles at h
    rw [Bool.not_eq_true] at hr
    rw [hr] at h
    simp at h

/-- cleanup_loop characterizes the deletion loop: the accumulated count,
freed bytes and deleted names come from the entries whose unlink
succeeded, in order. -/
theorem cleanup_loop (faults : FsFaults) :
    ∀ (l : List CacheFile) (a b : Nat) (ns : List String),
      l.foldl
        (fun acc f =>
          if f.name ∈ faults.unlinkFails then acc
          else (acc.1 + 1, acc.2.1 + f.size, acc.2.2 ++ [f.name]))
        (a, b, ns)
      = (a + (l.filter (fun f => decide (f.name ∉ faults.unlinkFails))).length,
         b + ((l.filter (fun f => decide (f.name ∉ faults.unlinkFails))).map
                (fun f => f.size)).sum,
         ns ++ (l.filter (fun f => decide (f.name ∉ faults.unlinkFails))).map
                (fun f => f.name)) := by
  intro l
  induction l with
  | nil => intro a b ns; simp
  | cons f t ih =>
    intro a b ns
    by_cases h1 : f.name ∈ faults.unlinkFails
    · simp only [List.foldl_cons, List.filter_cons, h1, if_pos]
      simp [h1, ih]
    · simp only [List.foldl_cons, List.filter_cons, h1, if_neg]
      simp only [h1, not_false_eq_true, decide_True, if_true]
      rw [ih]
      simp [Nat.add_assoc, Nat.add_comm 1]

/-- cleanup_spec restates the cleanup pass in closed form: the result
counts exactly the expired entries whose unlink succeeded, and the state
afterwards keeps exactly the entries whose name was not deleted. -/
theorem cleanup_spec (st : CacheState) (faults : FsFaults) (cutoff : Int) :
    cleanupExpiredCacheFiles st faults cutoff
      = ({ deletedCount := ((getExpiredCacheFiles st faults cutoff).filter
              (fun f => decide (f.name ∉ faults.unlinkFails))).length,
           freedSpace := (((getExpiredCacheFiles st faults cutoff).filter
              (fun f => decide (f.name ∉ faults.unlinkFails))).map
                (fun f => f.size)).sum },
         { st with files :=
            (st.files.filter
              (fun g => decide (g.name ∉
                ((getExpiredCacheFiles st faults cutoff).filter
                  (fun f => decide (f.name ∉ faults.unlinkFails))).map
                    (fun f => f.name)))) }) := by
  unfold cleanupExpiredCacheFiles
  by_cases h : (getExpiredCacheFiles st faults cutoff).length = 0
  · have hnil : getExpiredCacheFiles st faults cutoff = [] :=
      List.length_eq_zero.mp h
    simp [h, hnil]
  · simp only [h, if_neg, if_false]
    rw [cleanup_loop]
    simp

/-- lookup_writeCache shows a write puts the entry for the key at the
front of the directory, so a lookup finds exactly the written entry. -/
theorem lookup_writeCache (filename : String) (blob : List Nat) (now : Int)
    (st : CacheState) :
    lookupFile filename (writeCache filename blob now st).files
      = some { name := filename, size := blob.length, mtime := now, content := blob } := by
  simp [lookupFile, writeCache]

/-- lookup_after_cleanup shows a cleanup pass over a directory that just
received a fresh write (modification time past the cutoff) keeps the
written entry, and a lookup still finds it. -/
theorem lookup_after_cleanup (filename : String) (blob : List Nat) (now cutoff : Int)
    (st : CacheState) (faults : FsFaults) (hfresh : cutoff < now) :
    lookupFile filename
        (cleanupExpiredCacheFiles (writeCache filename blob now st) faults cutoff).2.files
      = some { name := filename, size := blob.length, mtime := now, content := blob } := by
  rw [cleanup_spec]
  have hnotdel : filename ∉
      ((getExpiredCacheFiles (writeCache filename blob now st) faults cutoff).filter
        (fun f => decide (f.name ∉ faults.unlinkFails))).map (fun f => f.name) := by
    intro hin
    rcases List.mem_map.mp hin with ⟨g, hg, hgname⟩
    have hg1 := (List.mem_filter.mp hg).1
    rcases mem_getExpired _ faults cutoff g hg1 with ⟨hmemfiles, hold⟩
    simp only [writeCache, List.mem_cons, List.mem_filter] at hmemfiles
    rcases hmemfiles with hgnew | ⟨-, hne⟩
    · rw [hgnew] at hold
      simp at hold
      omega
    · rw [hgname] at hne
      simp at hne
  simp only [lookupFile, writeCache, List.filter_cons]
  rw [if_pos (by simpa using hnotdel)]
  simp

/-- lookup_after_miss shows the state left by a successful miss request
still holds the freshly written entry, whether or not the size-triggered
sweep ran during the request. -/
theorem lookup_after_miss (st : CacheState) (faults : FsFaults) (now cutoff : Int)
    (budgetMB : Nat) (blob : List Nat) (filename : String)
    (hmiss : isCacheValid st cutoff filename = false) (hfresh : cutoff < now) :
    lookupFile filename
        (proxyHandler st faults now cutoff budgetMB (FetchResult.ok blob)
          false filename).state.files
      = some { name := filename, size := blob.length, mtime := now, content := blob } := by
  simp only [proxyHandler, hmiss, Bool.false_eq_true, if_false]
  split
  · exact lookup_after_cleanup filename blob now cutoff st faults hfresh
  · exact lookup_writeCache filename blob now st

/-- C1: the claim says getCacheFilePath rejects or sanitizes keys holding
path-traversal sequences so the resulting location always lies inside the
cache directory. The code joins the raw key onto the cache directory with
no check, so the key "../../etc/passwd" resolves to a location outside the
cache directory: the claimed containment fails at this input. -/
theorem getCacheFilePath_escape :
    getCacheFilePath "../../etc/passwd" = ["srv", "etc", "passwd"] ∧
    insideCacheDir (getCacheFilePath "../../etc/passwd") = false := by
  decide

/-- getCacheFilePath_plain checks the model maps an ordinary key inside
the cache directory. -/
theorem getCacheFilePath_plain :
    getCacheFilePath "a.png" = ["srv", "upic", "cache", "a.png"] ∧
    insideCacheDir (getCacheFilePath "a.png") = true := by
  decide

/-- C2: with cutoff = now - threshold, the validity test answers true
exactly when the age now - mtime is strictly below the threshold — an age
equal to the threshold is invalid — and the expired enumeration returns
exactly the directory entries failing that test. -/
theorem isCacheValid_age_boundary (st : CacheState) (now threshold : Int)
    (filename : String) (f : CacheFile)
    (hfind : lookupFile filename st.files = some f)
    (hread : st.readable = true) :
    (isCacheValid st (now - threshold) filename
        = decide (now - f.mtime < threshold)) ∧
    getExpiredCacheFiles st noFaults (now - threshold)
      = st.files.filter (fun g => !decide (now - g.mtime < threshold)) := by
  constructor
  · unfold isCacheValid
    rw [hfind]
    exact decide_eq_decide.mpr (by omega)
  · rw [getExpired_eq_filter st noFaults (now - threshold) hread]
    apply List.filter_congr
    intro g _
    simp only [noFaults, List.not_mem_nil, not_false_eq_true, decide_True,
      Bool.true_and]
    rw [← decide_not]
    exact decide_eq_decide.mpr (by omega)

/-- Witness for C2 at the exact boundary: the entry fileBoundary has age
exactly equal to the threshold (now = 100, threshold = 60, mtime = 40) and
comes out invalid and enumerated as expired. -/
theorem isCacheValid_age_boundary_witness :
    lookupFile "edge.png" stW.files = some fileBoundary ∧
    stW.readable = true ∧
    ((isCacheValid stW ((100 : Int) - 60) "edge.png"
        = decide ((100 : Int) - fileBoundary.mtime < 60)) ∧
      getExpiredCacheFiles stW noFaults ((100 : Int) - 60)
        = stW.files.filter (fun g => !decide ((100 : Int) - g.mtime < 60))) :=
  ⟨by decide, by decide,
    isCacheValid_age_boundary stW 100 60 "edge.png" fileBoundary
      (by decide) (by decide)⟩

/-- C3: a request whose key has a present and valid cache entry is served
the stored blob with status 200 and zero invocations of the remote fetch
collaborator. -/
theorem cache_hit_serves_without_fetch (st : CacheState) (faults : FsFaults)
    (now cutoff : Int) (budgetMB : Nat) (fetch : FetchResult)
    (writeFails : Bool) (filename : String)
    (hvalid : isCacheValid st cutoff filename = true) :
    (proxyHandler st faults now cutoff budgetMB fetch writeFails
        filename).fetchCalls = 0 ∧
    (proxyHandler st faults now cutoff budgetMB fetch writeFails
        filename).served
      = (lookupFile filename st.files).map (fun f => f.content) ∧
    (proxyHandler st faults now cutoff budgetMB fetch writeFails
        filename).status = 200 := by
  simp [proxyHandler, hvalid]

/-- Witness for C3: the fresh entry is served and the fetch collaborator,
here one that would fail if consulted, is never invoked. -/
theorem cache_hit_serves_without_fetch_witness :
    isCacheValid stW 40 "a.png" = true ∧
    ((proxyHandler stW noFaults 100 40 1024 FetchResult.err false
        "a.png").fetchCalls = 0 ∧
      (proxyHandler stW noFaults 100 40 1024 FetchResult.err false
        "a.png").served
        = (lookupFile "a.png" stW.files).map (fun f => f.content) ∧
      (proxyHandler stW noFaults 100 40 1024 FetchResult.err false
        "a.png").status = 200) :=
  ⟨by decide,
    cache_hit_serves_without_fetch stW noFaults 100 40 1024 FetchResult.err
      false "a.png" (by decide)⟩

/-- C4: a request whose key has no cached entry invokes the remote fetch
exactly once, writes the fetched blob into the cache under that key, and
an immediate second request for the same key is a cache hit that invokes
no further fetch. -/
theorem cache_miss_fetches_once_then_hits (st : CacheState)
    (faults faults2 : FsFaults) (now cutoff : Int) (budgetMB budgetMB2 : Nat)
    (blob : List Nat) (fetch2 : FetchResult) (writeFails2 : Bool)
    (filename : String)
    (hmiss : lookupFile filename st.files = none)
    (hfresh : cutoff < now) :
    (proxyHandler st faults now cutoff budgetMB (FetchResult.ok blob) false
        filename).fetchCalls = 1 ∧
    (lookupFile filename (proxyHandler st faults now cutoff budgetMB
        (FetchResult.ok blob) false filename).state.files).map (fun f => f.content)
      = some blob ∧
    (proxyHandler
        (proxyHandler st faults now cutoff budgetMB (FetchResult.ok blob) false
          filename).state
        faults2 now cutoff budgetMB2 fetch2 writeFails2 filename).fetchCalls
      = 0 := by
  have hinvalid : isCacheValid st cutoff filename = false := by
    unfold isCacheValid
    rw [hmiss]
  have hlook := lookup_after_miss st faults now cutoff budgetMB blob filename
    hinvalid hfresh
  refine ⟨?_, ?_, ?_⟩
  · simp only [proxyHandler, hinvalid, Bool.false_eq_true, if_false]
    split <;> rfl
  · rw [hlook]
    rfl
  · have hvalid2 : isCacheValid
        (proxyHandler st faults now cutoff budgetMB (FetchResult.ok blob) false
          filename).state cutoff filename = true := by
      unfold isCacheValid
      rw [hlook]
      simpa using hfresh
    revert hvalid2
    generalize (proxyHandler st faults now cutoff budgetMB (FetchResult.ok blob)
      false filename).state = st2
    intro hvalid2
    simp [proxyHandler, hvalid2]

/-- Witness for C4: the key new.png is absent from stW; with a size budget
of zero the first request also runs the sweep, and the entry still serves
the second request from cache. -/
theorem cache_miss_fetches_once_then_hits_witness :
    lookupFile "new.png" stW.files = none ∧
    ((40 : Int) < 100) ∧
    ((proxyHandler stW noFaults 100 40 0 (FetchResult.ok [5, 6]) false
        "new.png").fetchCalls = 1 ∧
      (lookupFile "new.png" (proxyHandler stW noFaults 100 40 0
          (FetchResult.ok [5, 6]) false "new.png").state.files).map
          (fun f => f.content)
        = some [5, 6] ∧
      (proxyHandler
          (proxyHandler stW noFaults 100 40 0 (FetchResult.ok [5, 6]) false
            "new.png").state
          noFaults 100 40 0 FetchResult.err false "new.png").fetchCalls = 0) :=
  ⟨by decide, by decide,
    cache_miss_fetches_once_then_hits stW noFaults noFaults 100 40 0 0 [5, 6]
      FetchResult.err false "new.png" (by decide) (by decide)⟩

/-- C5: a second cleanup pass over the state left by a first pass, with the
same cutoff and no writes in between, deletes nothing and frees zero
bytes. -/
theorem cleanup_idempotent (st : CacheState) (cutoff : Int) :
    (cleanupExpiredCacheFiles
        (cleanupExpiredCacheFiles st noFaults cutoff).2 noFaults cutoff).1
      = { deletedCount := 0, freedSpace := 0 } := by
  have hexp2 : getExpiredCacheFiles
      (cleanupExpiredCacheFiles st noFaults cutoff).2 noFaults cutoff = [] := by
    by_cases hr : st.readable = true
    · have hr2 : (cleanupExpiredCacheFiles st noFaults cutoff).2.readable = true := by
        rw [cleanup_spec]
        exact hr
      rw [getExpired_eq_filter _ noFaults cutoff hr2]
      apply List.filter_eq_nil_iff.mpr
      intro g hg
      rw [cleanup_spec] at hg
      simp only [List.mem_filter, decide_eq_true_eq] at hg
      rcases hg with ⟨hgmem, hgnot⟩
      simp only [noFaults, List.not_mem_nil, not_false_eq_true, decide_True,
        Bool.true_and, Bool.and_eq_true, decide_eq_true_eq]
      intro hmt
      apply hgnot
      refine List.mem_map.mpr ⟨g, ?_, rfl⟩
      apply List.mem_filter.mpr
      refine ⟨?_, by simp [noFaults]⟩
      rw [getExpired_eq_filter st noFaults cutoff hr]
      exact List.mem_filter.mpr ⟨hgmem, by simp [noFaults, hmt]⟩
    · have hr2 : (cleanupExpiredCacheFiles st noFaults cutoff).2.readable = false := by
        rw [cleanup_spec]
        exact Bool.not_eq_true _ ▸ hr
      unfold getExpiredCacheFiles
      rw [hr2]
      simp
  revert hexp2
  generalize (cleanupExpiredCacheFiles st noFaults cutoff).2 = st1
  intro hexp2
  simp [cleanupExpiredCacheFiles, hexp2]

/-- C6: on a successful miss request, fresh aggregate stats are taken from
the state after the write, and the sweep runs exactly when the total size
strictly exceeds the budget; at or below budget the state is left as
written with no sweep. -/
theorem miss_sweeps_iff_over_budget (st : CacheState) (faults : FsFaults)
    (now cutoff : Int) (budgetMB : Nat) (blob : List Nat) (filename : String)
    (hmiss : isCacheValid st cutoff filename = false) :
    ((proxyHandler st faults now cutoff budgetMB (FetchResult.ok blob) false
        filename).sweepRan
      = exceedsBudget (getCacheStats (writeCache filename blob now st) faults)
          budgetMB) ∧
    (proxyHandler st faults now cutoff budgetMB (FetchResult.ok blob) false
        filename).state
      = (if exceedsBudget (getCacheStats (writeCache filename blob now st) faults)
            budgetMB = true
         then (cleanupExpiredCacheFiles (writeCache filename blob now st) faults
                cutoff).2
         else writeCache filename blob now st) := by
  simp only [proxyHandler, hmiss, Bool.false_eq_true, if_false]
  constructor
  · split <;> simp_all
  · split <;> simp_all

/-- Witness for C6: writing two bytes into stW under a zero budget leaves
162 bytes total, strictly over budget, so the sweep runs. -/
theorem miss_sweeps_iff_over_budget_witness :
    isCacheValid stW 40 "new.png" = false ∧
    (((proxyHandler stW noFaults 100 40 0 (FetchResult.ok [5, 6]) false
        "new.png").sweepRan
      = exceedsBudget (getCacheStats (writeCache "new.png" [5, 6] 100 stW)
          noFaults) 0) ∧
      (proxyHandler stW noFaults 100 40 0 (FetchResult.ok [5, 6]) false
          "new.png").state
        = (if exceedsBudget (getCacheStats (writeCache "new.png" [5, 6] 100 stW)
              noFaults) 0 = true
           then (cleanupExpiredCacheFiles (writeCache "new.png" [5, 6] 100 stW)
                  noFaults 40).2
           else writeCache "new.png" [5, 6] 100 stW)) :=
  ⟨by decide,
    miss_sweeps_iff_over_budget stW noFaults 100 40 0 [5, 6] "new.png"
      (by decide)⟩

/-- C7: per-entry failures never abort a batch pass. An entry whose stat
fails is merely skipped, so the enumeration is exactly the directory
entries that pass the stat and fail the validity test; and the cleanup
pass always completes, reporting the count and the bytes of exactly the
deletions whose unlink succeeded. -/
theorem per_entry_failures_skipped (st : CacheState) (faults : FsFaults)
    (cutoff : Int) (hread : st.readable = true) :
    getExpiredCacheFiles st faults cutoff
      = st.files.filter
          (fun f => decide (f.name ∉ faults.statFails) && decide (f.mtime ≤ cutoff)) ∧
    (cleanupExpiredCacheFiles st faults cutoff).1.deletedCount
      = ((getExpiredCacheFiles st faults cutoff).filter
          (fun f => decide (f.name ∉ faults.unlinkFails))).length ∧
    (cleanupExpiredCacheFiles st faults cutoff).1.freedSpace
      = (((getExpiredCacheFiles st faults cutoff).filter
          (fun f => decide (f.name ∉ faults.unlinkFails))).map
            (fun f => f.size)).sum := by
  refine ⟨getExpired_eq_filter st faults cutoff hread, ?_, ?_⟩ <;> rw [cleanup_spec]

/-- Witness for C7: under faultsW the stat of edge.png fails and the
unlink of old.png fails, yet the enumeration yields the other expired
entry and the pass completes with the totals of the successes. -/
theorem per_entry_failures_skipped_witness :
    stW.readable = true ∧
    (getExpiredCacheFiles stW faultsW 40
        = stW.files.filter
            (fun f => decide (f.name ∉ faultsW.statFails) && decide (f.mtime ≤ 40)) ∧
      (cleanupExpiredCacheFiles stW faultsW 40).1.deletedCount
        = ((getExpiredCacheFiles stW faultsW 40).filter
            (fun f => decide (f.name ∉ faultsW.unlinkFails))).length ∧
      (cleanupExpiredCacheFiles stW faultsW 40).1.freedSpace
        = (((getExpiredCacheFiles stW faultsW 40).filter
            (fun f => decide (f.name ∉ faultsW.unlinkFails))).map
              (fun f => f.size)).sum) :=
  ⟨by decide, per_entry_failures_skipped stW faultsW 40 (by decide)⟩

/-- C8: when the cache directory itself cannot be enumerated, the stats
aggregate degrades to zero files and zero bytes and the expired
enumeration to the empty list; neither raises to its caller. -/
theorem unreadable_dir_degrades (st : CacheState) (faults : FsFaults)
    (cutoff : Int) (hread : st.readable = false) :
    getCacheStats st faults = { totalFiles := 0, totalSize := 0 } ∧
    getExpiredCacheFiles st faults cutoff = [] := by
  unfold getCacheStats getExpiredCacheFiles
  rw [hread]
  simp

/-- Witness for C8: the unreadable directory stUnreadable degrades both
operations even though it physically holds an entry. -/
theorem unreadable_dir_degrades_witness :
    stUnreadable.readable = false ∧
    (getCacheStats stUnreadable faultsW = { totalFiles := 0, totalSize := 0 } ∧
      getExpiredCacheFiles stUnreadable faultsW 40 = []) :=
  ⟨by decide, unreadable_dir_degrades stUnreadable faultsW 40 (by decide)⟩

/-- C9: a request whose key has a stale cached entry and whose re-fetch
fails is answered 404 with the structured error body; the stale entry is
neither served nor touched — the directory state is unchanged and the
entry still present. -/
theorem stale_refetch_failure_404 (st : CacheState) (faults : FsFaults)
    (now cutoff : Int) (budgetMB : Nat) (writeFails : Bool) (filename : String)
    (f : CacheFile)
    (hfind : lookupFile filename st.files = some f)
    (hstale : f.mtime ≤ cutoff) :
    (proxyHandler st faults now cutoff budgetMB FetchResult.err writeFails
        filename).status = 404 ∧
    (proxyHandler st faults now cutoff budgetMB FetchResult.err writeFails
        filename).error = some "File not found or fetch failed" ∧
    (proxyHandler st faults now cutoff budgetMB FetchResult.err writeFails
        filename).served = none ∧
    (proxyHandler st faults now cutoff budgetMB FetchResult.err writeFails
        filename).state = st ∧
    lookupFile filename (proxyHandler st faults now cutoff budgetMB
        FetchResult.err writeFails filename).state.files = some f := by
  have hinvalid : isCacheValid st cutoff filename = false := by
    unfold isCacheValid
    rw [hfind]
    simp only [decide_eq_false_iff_not]
    omega
  simp [proxyHandler, hinvalid, hfind]

/-- Witness for C9: old.png is stale in stW; the failing fetch yields the
404 error body and the stale entry survives untouched. -/
theorem stale_refetch_failure_404_witness :
    lookupFile "old.png" stW.files = some fileStale ∧
    fileStale.mtime ≤ 40 ∧
    ((proxyHandler stW noFaults 100 40 1024 FetchResult.err false
        "old.png").status = 404 ∧
      (proxyHandler stW noFaults 100 40 1024 FetchResult.err false
        "old.png").error = some "File not found or fetch failed" ∧
      (proxyHandler stW noFaults 100 40 1024 FetchResult.err false
        "old.png").served = none ∧
      (proxyHandler stW noFaults 100 40 1024 FetchResult.err false
        "old.png").state = stW ∧
      lookupFile "old.png" (proxyHandler stW noFaults 100 40 1024
          FetchResult.err false "old.png").state.files = some fileStale) :=
  ⟨by decide, by decide,
    stale_refetch_failure_404 stW noFaults 100 40 1024 false "old.png"
      fileStale (by decide) (by decide)⟩

/-- C10: when the remote fetch succeeds on a miss but the cache write
throws, the request is answered with the same 404 error body and the
fetched blob, though in memory, is not served. -/
theorem write_failure_not_served (st : CacheState) (faults : FsFaults)
    (now cutoff : Int) (budgetMB : Nat) (blob : List Nat) (filename : String)
    (hmiss : isCacheValid st cutoff filename = false) :
    (proxyHandler st faults now cutoff budgetMB (FetchResult.ok blob) true
        filename).status = 404 ∧
    (proxyHandler st faults now cutoff budgetMB (FetchResult.ok blob) true
        filename).error = some "File not found or fetch failed" ∧
    (proxyHandler st faults now cutoff budgetMB (FetchResult.ok blob) true
        filename).served = none ∧
    (proxyHandler st faults now cutoff budgetMB (FetchResult.ok blob) true
        filename).fetchCalls = 1 := by
  simp [proxyHandler, hmiss]

/-- Witness for C10: a successful fetch of two bytes followed by a failing
write is answered 404 and serves nothing. -/
theorem write_failure_not_served_witness :
    isCacheValid stW 40 "new.png" = false ∧
    ((proxyHandler stW noFaults 100 40 1024 (FetchResult.ok [5, 6]) true
        "new.png").status = 404 ∧
      (proxyHandler stW noFaults 100 40 1024 (FetchResult.ok [5, 6]) true
        "new.png").error = some "File not found or fetch failed" ∧
      (proxyHandler stW noFaults 100 40 1024 (FetchResult.ok [5, 6]) true
        "new.png").served = none ∧
      (proxyHandler stW noFaults 100 40 1024 (FetchResult.ok [5, 6]) true
        "new.png").fetchCalls = 1) :=
  ⟨by decide,
    write_failure_not_served stW noFaults 100 40 1024 [5, 6] "new.png"
      (by decide)⟩

end UpicGithub
